import Mathlib

/-!
# Verification of the rtlamr2mqtt telemetry relay (src/rtlamr2mqtt.py)

A shallow embedding of the core of `rtlamr2mqtt.py`:

* a model of Python's `json` module restricted to the JSON fragment the relay
  handles (objects, arrays, strings with `\"`/`\\`-style escapes, integers,
  booleans, `null`), with `parseJson` modelling `json.loads` and `dumpsStr`
  modelling `json.dumps` (default separators `", "` and `": "`);
* the `MqttSender` class (construction and `publish`);
* `load_config`'s path-selection and format-dispatch logic;
* the `shutdown` signal handler, both as a straight-line event trace and as a
  small-step machine in which further signals may be delivered between the
  handler's statements (CPython delivers pending signals at bytecode
  boundaries, so a handler can re-enter a running handler);
* the `listen_mode` line-relay loop and the `__main__` mode dispatch.

Pure functions become Lean functions; the outcome of the external single-shot
MQTT publish is an explicit parameter; process handles and the environment are
explicit values.
-/

namespace Rtlamr

/-! ## Characters and Python-style string helpers -/

/-- The whitespace characters relevant to JSON and to Python's `str.strip`. -/
def isWsChar (c : Char) : Bool :=
  c = ' ' || c = '\t' || c = '\n' || c = '\r'

/-- Decimal digit test by code point (models `0`–`9`). -/
def isDigitChar (c : Char) : Bool :=
  48 ≤ c.toNat && c.toNat ≤ 57

/-- Numeric value of a decimal digit character. -/
def digitVal (c : Char) : Nat := c.toNat - 48

/-- Drop leading whitespace characters. -/
def skipWs : List Char → List Char
  | [] => []
  | c :: cs => if isWsChar c then skipWs cs else c :: cs

/-- Model of Python `str.strip()`: remove leading and trailing whitespace. -/
def pyStrip (s : String) : String :=
  String.mk (((s.data.dropWhile isWsChar).reverse.dropWhile isWsChar).reverse)

/-- Lower-case one ASCII character (models `str.lower` on the ASCII range). -/
def lowerChar (c : Char) : Char :=
  if 65 ≤ c.toNat ∧ c.toNat ≤ 90 then Char.ofNat (c.toNat + 32) else c

/-- Model of Python `str.lower()` (ASCII range). -/
def pyLower (s : String) : String := String.mk (s.data.map lowerChar)

/-- Helper for `pySplit`: accumulate the current word (reversed) while
scanning. -/
def pySplitAux : List Char → List Char → List String
  | [], acc => if acc.isEmpty then [] else [String.mk acc.reverse]
  | c :: cs, acc =>
    if isWsChar c then
      if acc.isEmpty then pySplitAux cs []
      else String.mk acc.reverse :: pySplitAux cs []
    else pySplitAux cs (c :: acc)

/-- Model of Python `str.split()` with no arguments: split on runs of
whitespace, producing no empty words. -/
def pySplit (s : String) : List String := pySplitAux s.data []

/-- Model of Python `str.endswith`. -/
def pyEndsWith (s suffix : String) : Bool := suffix.data.isSuffixOf s.data

/-- Truthiness of `os.getenv(..)`-style results: Python's
`bool(None) = False`, `bool("") = False`, `bool(nonempty) = True`. -/
def pyBoolOfOptStr : Option String → Bool
  | none => false
  | some s => !s.data.isEmpty

/-! ## A model of the `json` module

The relay only relies on `json.loads` / `json.dumps` for line-delimited meter
records, so the model covers JSON values with integer numerals and
quote/backslash escapes in strings; `json.dumps` is modelled with its default
separators `", "` and `": "`. -/

/-- JSON values as produced by `json.loads` (numbers restricted to
integers, which is what rtlamr meter records contain). -/
inductive Json where
  | null : Json
  | bool (b : Bool) : Json
  | num (n : Int) : Json
  | str (s : String) : Json
  | arr (elems : List Json) : Json
  | obj (members : List (String × Json)) : Json
deriving Repr

/-- Decimal digit character for a value below ten (as in `Nat.digitChar`). -/
def digitCharOf (d : Nat) : Char := Nat.digitChar d

/-- Emit the decimal digits of `n` (most significant first) in front of
`acc`; `fuel ≥ n` suffices. -/
def printNatCore : Nat → Nat → List Char → List Char
  | 0, _, acc => acc
  | fuel + 1, n, acc =>
    if n = 0 then acc else printNatCore fuel (n / 10) (digitCharOf (n % 10) :: acc)

/-- Print a natural number in decimal. -/
def printNat (n : Nat) : List Char :=
  if n = 0 then ['0'] else printNatCore n n []

/-- Print an integer in decimal, as `json.dumps` would. -/
def printInt (n : Int) : List Char :=
  if n < 0 then '-' :: printNat n.natAbs else printNat n.toNat

/-- Escape one character inside a JSON string literal (`json.dumps` escapes
the quote and the backslash; other characters pass through in this model). -/
def escChar (c : Char) : List Char :=
  if c = '"' || c = '\\' then ['\\', c] else [c]

/-- Escape the body of a JSON string literal. -/
def escStr : List Char → List Char
  | [] => []
  | c :: cs => escChar c ++ escStr cs

mutual

/-- Model of `json.dumps` (default separators), producing a character list. -/
def dumpJ : Json → List Char
  | Json.null => ['n', 'u', 'l', 'l']
  | Json.bool true => ['t', 'r', 'u', 'e']
  | Json.bool false => ['f', 'a', 'l', 's', 'e']
  | Json.num n => printInt n
  | Json.str s => '"' :: (escStr s.data ++ ['"'])
  | Json.arr xs => '[' :: (dumpArr xs ++ [']'])
  | Json.obj ms => '\x7b' :: (dumpObj ms ++ ['\x7d'])

/-- Serialize the elements of an array (without the brackets). -/
def dumpArr : List Json → List Char
  | [] => []
  | x :: xs => dumpJ x ++ dumpArrTail xs

/-- Serialize the second and later elements of an array, each preceded by the
default separator `", "`. -/
def dumpArrTail : List Json → List Char
  | [] => []
  | x :: xs => ',' :: ' ' :: (dumpJ x ++ dumpArrTail xs)

/-- Serialize one `"key": value` member. -/
def dumpMember (k : String) (v : Json) : List Char :=
  '"' :: (escStr k.data ++ ('"' :: ':' :: ' ' :: dumpJ v))

/-- Serialize the members of an object (without the braces). -/
def dumpObj : List (String × Json) → List Char
  | [] => []
  | (k, v) :: ms => dumpMember k v ++ dumpObjTail ms

/-- Serialize the second and later members of an object. -/
def dumpObjTail : List (String × Json) → List Char
  | [] => []
  | (k, v) :: ms => ',' :: ' ' :: (dumpMember k v ++ dumpObjTail ms)

end

/-- Model of `json.dumps` as a `String`. -/
def dumpsStr (v : Json) : String := String.mk (dumpJ v)

/-! ### The parser (model of `json.loads`)

A fuel-indexed recursive-descent parser. `parseJson` supplies fuel
`2 * length + 2`, which is enough for every input the printer produces (shown
below) and for nested inputs generally, since every two fuel steps consume at
least one character of input. -/

/-- Read a (possibly empty) run of decimal digits, accumulating their value. -/
def readDigits : List Char → Nat → Nat × List Char
  | [], acc => (acc, [])
  | c :: cs, acc =>
    if isDigitChar c then readDigits cs (10 * acc + digitVal c) else (acc, c :: cs)

/-- Parse a natural-number literal (at least one digit). -/
def pNatLit (s : List Char) : Option (Nat × List Char) :=
  match s with
  | [] => none
  | c :: _ => if isDigitChar c then some (readDigits s 0) else none

/-- Interpretation of a character after a backslash inside a string literal. -/
def unescChar : Char → Char
  | 'n' => '\n'
  | 't' => '\t'
  | 'r' => '\r'
  | 'b' => '\x08'
  | 'f' => '\x0c'
  | c => c

/-- Parse a string-literal body (the opening quote already consumed),
returning the unescaped content and the input after the closing quote. -/
def pStringLit : List Char → Option (List Char × List Char)
  | [] => none
  | c :: cs =>
    if c = '"' then some ([], cs)
    else if c = '\\' then
      match cs with
      | [] => none
      | e :: cs' =>
        match pStringLit cs' with
        | none => none
        | some (body, rest) => some (unescChar e :: body, rest)
    else
      match pStringLit cs with
      | none => none
      | some (body, rest) => some (c :: body, rest)
termination_by structural s => s

/-- Match an expected literal character sequence. -/
def stripLit : List Char → List Char → Option (List Char)
  | [], s => some s
  | p :: ps, [] => none
  | p :: ps, c :: cs => if c = p then stripLit ps cs else none

mutual

/-- Parse one JSON value (model of the recursive core of `json.loads`). -/
def pVal : Nat → List Char → Option (Json × List Char)
  | 0, _ => none
  | fuel + 1, s =>
    match skipWs s with
    | [] => none
    | c :: cs =>
      if c = '"' then
        match pStringLit cs with
        | none => none
        | some (body, rest) => some (Json.str (String.mk body), rest)
      else if c = '[' then
        match pElems fuel cs with
        | none => none
        | some (xs, rest) => some (Json.arr xs, rest)
      else if c = '\x7b' then
        match pMembers fuel cs with
        | none => none
        | some (ms, rest) => some (Json.obj ms, rest)
      else if c = '-' then
        match pNatLit cs with
        | none => none
        | some (n, rest) => some (Json.num (-(n : Int)), rest)
      else if c = 'n' then
        match stripLit ['u', 'l', 'l'] cs with
        | none => none
        | some rest => some (Json.null, rest)
      else if c = 't' then
        match stripLit ['r', 'u', 'e'] cs with
        | none => none
        | some rest => some (Json.bool true, rest)
      else if c = 'f' then
        match stripLit ['a', 'l', 's', 'e'] cs with
        | none => none
        | some rest => some (Json.bool false, rest)
      else if isDigitChar c then
        match pNatLit (c :: cs) with
        | none => none
        | some (n, rest) => some (Json.num (n : Int), rest)
      else none
termination_by structural fuel s => fuel

/-- Parse array elements after the opening bracket. -/
def pElems : Nat → List Char → Option (List Json × List Char)
  | 0, _ => none
  | fuel + 1, s =>
    match skipWs s with
    | [] => none
    | c :: cs =>
      if c = ']' then some ([], cs)
      else
        match pVal fuel (c :: cs) with
        | none => none
        | some (v, rest) =>
          match pElemsTail fuel rest with
          | none => none
          | some (vs, rest') => some (v :: vs, rest')
termination_by structural fuel s => fuel

/-- Parse `, element`* `]` after a parsed element. -/
def pElemsTail : Nat → List Char → Option (List Json × List Char)
  | 0, _ => none
  | fuel + 1, s =>
    match skipWs s with
    | [] => none
    | c :: cs =>
      if c = ']' then some ([], cs)
      else if c = ',' then
        match pVal fuel cs with
        | none => none
        | some (v, rest) =>
          match pElemsTail fuel rest with
          | none => none
          | some (vs, rest') => some (v :: vs, rest')
      else none
termination_by structural fuel s => fuel

/-- Parse one `"key": value` member (the body shared by `pMembers` and
`pMembersTail`). -/
def pMember : Nat → List Char → Option ((String × Json) × List Char)
  | 0, _ => none
  | fuel + 1, s =>
    match skipWs s with
    | [] => none
    | c :: cs =>
      if c = '"' then
        match pStringLit cs with
        | none => none
        | some (key, rest) =>
          match skipWs rest with
          | [] => none
          | c' :: rest' =>
            if c' = ':' then
              match pVal fuel rest' with
              | none => none
              | some (v, rest'') => some ((String.mk key, v), rest'')
            else none
      else none
termination_by structural fuel s => fuel

/-- Parse object members after the opening brace. -/
def pMembers : Nat → List Char → Option (List (String × Json) × List Char)
  | 0, _ => none
  | fuel + 1, s =>
    match skipWs s with
    | [] => none
    | c :: cs =>
      if c = '\x7d' then some ([], cs)
      else
        match pMember fuel (c :: cs) with
        | none => none
        | some (m, rest) =>
          match pMembersTail fuel rest with
          | none => none
          | some (ms, rest') => some (m :: ms, rest')
termination_by structural fuel s => fuel

/-- Parse `, member`* `}` after a parsed member. -/
def pMembersTail : Nat → List Char → Option (List (String × Json) × List Char)
  | 0, _ => none
  | fuel + 1, s =>
    match skipWs s with
    | [] => none
    | c :: cs =>
      if c = '\x7d' then some ([], cs)
      else if c = ',' then
        match pMember fuel cs with
        | none => none
        | some (m, rest) =>
          match pMembersTail fuel rest with
          | none => none
          | some (ms, rest') => some (m :: ms, rest')
      else none
termination_by structural fuel s => fuel

end

/-- Model of `json.loads` on a character list: parse one value and require
that only whitespace remains. -/
def parseJsonChars (s : List Char) : Option Json :=
  match pVal (2 * s.length + 2) s with
  | none => none
  | some (v, rest) =>
    match skipWs rest with
    | [] => some v
    | _ :: _ => none

/-- Model of `json.loads` on a `String`. -/
def parseJson (s : String) : Option Json := parseJsonChars s.data

/-- A parser input position that may legally follow a printed value: end of
input or a separator/closing character (never a digit, so numeral parsing
stops there). -/
def isDelim : List Char → Bool
  | [] => true
  | c :: _ => c = ',' || c = ']' || c = '\x7d'

mutual

/-- Fuel sufficient for `pVal` to parse the printed form of a value. -/
def needJ : Json → Nat
  | Json.null => 1
  | Json.bool _ => 1
  | Json.num _ => 1
  | Json.str _ => 1
  | Json.arr xs => needElems xs + 1
  | Json.obj ms => needMembers ms + 1

/-- Fuel sufficient for `pElems` on the printed elements of an array. -/
def needElems : List Json → Nat
  | [] => 1
  | x :: xs => max (needJ x) (needTail xs) + 1

/-- Fuel sufficient for `pElemsTail` on printed trailing elements. -/
def needTail : List Json → Nat
  | [] => 1
  | x :: xs => max (needJ x) (needTail xs) + 1

/-- Fuel sufficient for `pMembers` on the printed members of an object
(`pMember` spends one fuel step of its own before reaching the value). -/
def needMembers : List (String × Json) → Nat
  | [] => 1
  | (_, v) :: ms => max (needJ v + 1) (needMTail ms) + 1

/-- Fuel sufficient for `pMembersTail` on printed trailing members. -/
def needMTail : List (String × Json) → Nat
  | [] => 1
  | (_, v) :: ms => max (needJ v + 1) (needMTail ms) + 1

end

/-! ## Logging -/

/-- Severity of a `logging` call. -/
inductive LogLevel where
  | debug
  | info
  | error
deriving Repr, DecidableEq

/-- One emitted log record. -/
structure LogLine where
  level : LogLevel
  msg : String
deriving Repr, DecidableEq

/-! ## `MqttSender` (lines 46–86 of the source) -/

/-- The TLS dictionary assembled by `MqttSender.__init__` when
`tls_enabled` is set. -/
structure TlsParams where
  ca_certs : String
  certfile : Option String
  keyfile : Option String
  cert_reqs_none : Bool
deriving Repr, DecidableEq

/-- The `mqtt` section of the configuration as a Python dict: every key may
be absent (`.get` then applies the constructor's default). -/
structure MqttConfDict where
  host : Option String
  port : Option Nat
  user : Option String
  password : Option String
  base_topic : Option String
  tls_enabled : Option Bool
  tls_insecure : Option Bool
  tls_ca : Option String
  tls_cert : Option String
  tls_keyfile : Option String
deriving Repr

/-- The `MqttSender` object state after `__init__`. -/
structure MqttSender where
  host : String
  port : Nat
  username : Option String
  password : Option String
  base_topic : String
  availability_topic : String
  tls : Option TlsParams
deriving Repr

/-- `MqttSender.__init__` (lines 47–64). -/
def MqttSender.init (config : MqttConfDict) : MqttSender :=
  let base := config.base_topic.getD "rtlamr"
  { host := config.host.getD "localhost"
    port := config.port.getD 1883
    username := config.user
    password := config.password
    base_topic := base
    availability_topic := base ++ "/status"
    tls :=
      if config.tls_enabled.getD false then
        some { ca_certs := config.tls_ca.getD "/etc/ssl/certs/ca-certificates.crt"
               certfile := config.tls_cert
               keyfile := config.tls_keyfile
               cert_reqs_none := config.tls_insecure.getD true }
      else none }

/-- Result of the underlying `paho.mqtt.publish.single` call: it either
succeeds, raises an `MQTTException`, or raises some other exception. -/
inductive PublishOutcome where
  | success
  | mqttError (e : String)
  | unknownError (e : String)
deriving Repr, DecidableEq

/-- `MqttSender.publish` (lines 66–86): one single-shot publish; both
exception classes are caught, logged, and turned into `False`; success logs
at debug level and returns `True`. -/
def MqttSender.publish (sender : MqttSender) (topic payload : String)
    (retain : Bool) (qos : Nat) (outcome : PublishOutcome) : Bool × List LogLine :=
  match outcome with
  | PublishOutcome.success =>
    (true, [⟨LogLevel.debug, "MQTT published: " ++ topic ++ " -> " ++ payload⟩])
  | PublishOutcome.mqttError e =>
    (false, [⟨LogLevel.error, "MQTT error: " ++ e⟩])
  | PublishOutcome.unknownError e =>
    (false, [⟨LogLevel.error, "Unknown MQTT error: " ++ e⟩])

/-! ## `load_config` (lines 91–111): path selection and format dispatch -/

/-- Format chosen from the file-name suffix. -/
inductive ConfigFormat where
  | yaml
  | json
deriving Repr, DecidableEq

/-- How `load_config` ends: `sys.exit(code)` after an error log, or loading
the file at the selected path with the selected parser. -/
inductive ConfigOutcome where
  | exited (code : Nat) (errorLog : String)
  | loaded (path : String) (format : ConfigFormat)
deriving Repr, DecidableEq

/-- The two default config locations probed in order (line 93). -/
def configCandidates : List String := ["/data/options.json", "/etc/rtlamr2mqtt.yaml"]

/-- The suffix dispatch of `load_config` (lines 103–111): `.yaml`/`.yml`
selects the YAML parser, `.json`/`.js` the JSON parser, anything else logs
`Unsupported config format` and exits 1. -/
def loadConfigAt (p : String) : ConfigOutcome :=
  if pyEndsWith p ".yaml" || pyEndsWith p ".yml" then
    ConfigOutcome.loaded p ConfigFormat.yaml
  else if pyEndsWith p ".json" || pyEndsWith p ".js" then
    ConfigOutcome.loaded p ConfigFormat.json
  else ConfigOutcome.exited 1 "Unsupported config format"

/-- `load_config` (lines 91–111), up to the point where a file is opened:
when no path is given, probe the default locations in order and exit 1 when
none exists; then dispatch on the file-name suffix. -/
def load_config (pathArg : Option String) (fileExists : String → Bool) : ConfigOutcome :=
  match pathArg with
  | some p => loadConfigAt p
  | none =>
    match configCandidates.find? fileExists with
    | none => ConfigOutcome.exited 1 "No config file found. Exiting."
    | some p => loadConfigAt p

/-! ## Module-level globals (line 36) -/

/-- `running_as_addon = bool(os.getenv("SUPERVISOR_TOKEN"))`: Python
truthiness of the variable's value — `False` both when the variable is unset
and when it is set to the empty string. -/
def running_as_addon (env : String → Option String) : Bool :=
  pyBoolOfOptStr (env "SUPERVISOR_TOKEN")

/-- An environment with exactly one variable set. -/
def envWith (k v : String) : String → Option String :=
  fun k' => if k' = k then some v else none

/-! ## `shutdown` (lines 133–145) as a straight-line event trace -/

/-- A child-process handle as `shutdown` observes it: `alive` is
`poll() is None`; `cooperative` says whether the process exits within the
grace period after `terminate()` (otherwise `wait(timeout=5)` raises
`TimeoutExpired` and `kill()` runs). -/
structure PyProc where
  alive : Bool
  cooperative : Bool
deriving Repr, DecidableEq

/-- Observable actions of the shutdown path, in program order. Process `0`
is `rtltcp_proc`, process `1` is `rtlamr_proc`. -/
inductive SEv where
  | terminate (i : Nat)
  | waitGrace (i : Nat) (seconds : Nat)
  | kill (i : Nat)
  | publishOffline (topic payload : String) (retain : Bool) (succeeded : Bool)
  | exitProcess (code : Nat)
deriving Repr, DecidableEq

/-- The events of the per-process stop block (lines 136–142):
`if proc and proc.poll() is None: terminate(); wait(5) / kill()`. -/
def stopEvents (i : Nat) : Option PyProc → List SEv
  | none => []
  | some p =>
    if p.alive then
      SEv.terminate i :: SEv.waitGrace i 5 ::
        (if p.cooperative then [] else [SEv.kill i])
    else []

/-- The full event trace of one `shutdown` call (lines 133–145): stop both
handles, then (if a sender exists) one retained offline publish to the
availability topic whose outcome is ignored, then `sys.exit(0)`. -/
def shutdownTrace (rtltcp rtlamr : Option PyProc) (sender : Option MqttSender)
    (outcome : PublishOutcome) : List SEv :=
  stopEvents 0 rtltcp ++ stopEvents 1 rtlamr ++
    (match sender with
     | some s =>
       [SEv.publishOffline s.availability_topic "offline" true
          (s.publish s.availability_topic "offline" true 0 outcome).1]
     | none => []) ++ [SEv.exitProcess 0]

/-- Is an event a broker publish? -/
def SEv.isPublish : SEv → Bool
  | SEv.publishOffline _ _ _ _ => true
  | _ => false

/-! ## `shutdown` under re-entrant signal delivery

CPython delivers a pending signal at the next bytecode boundary, so while the
Python-level `shutdown` handler runs, a further SIGINT/SIGTERM starts a new
invocation of `shutdown` on top of it; `sys.exit` raises `SystemExit`, which
unwinds every frame. The handler in the source has no single-entry guard, so
this machine has none either. -/

/-- The three statements of the handler body, at the granularity at which a
pending signal can be delivered between them. -/
inductive HStep where
  | stopProcs
  | publishOffline
  | exitZero
deriving Repr, DecidableEq

/-- The `shutdown` body (lines 133–145). -/
def shutdownBody : List HStep := [HStep.stopProcs, HStep.publishOffline, HStep.exitZero]

/-- State of the interrupt machine: the stack of running handler frames
(innermost first, each the list of its remaining statements), the number of
offline publish attempts so far, the number of process exits, and whether the
process is still alive. -/
structure SigState where
  frames : List (List HStep)
  offlinePublishes : Nat
  exits : Nat
  alive : Bool
deriving Repr, DecidableEq

/-- Before any signal: no handler running, nothing published, process alive. -/
def initialSigState : SigState :=
  { frames := [], offlinePublishes := 0, exits := 0, alive := true }

/-- An external occurrence: a termination signal (SIGINT or SIGTERM — both are
bound to `shutdown` in lines 147–148) arrives, or the innermost running
handler executes its next statement. -/
inductive SigEv where
  | signal
  | step
deriving Repr, DecidableEq

/-- One transition of the interrupt machine. A signal starts a new handler
invocation on top of the stack; `exitZero` models `sys.exit(0)`: the raised
`SystemExit` unwinds every frame and the process dies. -/
def sigStep (hasSender : Bool) (s : SigState) (e : SigEv) : SigState :=
  if s.alive = false then s
  else
    match e with
    | SigEv.signal => { s with frames := shutdownBody :: s.frames }
    | SigEv.step =>
      match s.frames with
      | [] => s
      | [] :: outer => { s with frames := outer }
      | (HStep.stopProcs :: rest) :: outer => { s with frames := rest :: outer }
      | (HStep.publishOffline :: rest) :: outer =>
        { s with frames := rest :: outer
                 offlinePublishes := s.offlinePublishes + (if hasSender then 1 else 0) }
      | (HStep.exitZero :: _) :: _ =>
        { s with frames := [], exits := s.exits + 1, alive := false }

/-- Run the machine over a sequence of occurrences. -/
def sigRun (hasSender : Bool) (events : List SigEv) : SigState :=
  events.foldl (sigStep hasSender) initialSigState

/-! ## `listen_mode` (lines 153–176) -/

/-- One broker publish call as issued by the program. -/
structure Pub where
  topic : String
  payload : String
  retain : Bool
  qos : Nat
deriving Repr, DecidableEq

/-- Line 156: `mqtt_sender = MqttSender(cfg['mqtt']) if running_as_addon
else None`. -/
def listenModeSender (env : String → Option String) (mqttConf : MqttConfDict) :
    Option MqttSender :=
  if running_as_addon env then some (MqttSender.init mqttConf) else none

/-- The `subprocess.Popen` call of `listen_mode` (lines 158–164). -/
structure PopenCall where
  args : List String
  stdoutPipe : Bool
  stderrToStdout : Bool
  universalNewlines : Bool
deriving Repr, DecidableEq

/-- Construction of the decoder command line and its launch parameters
(lines 158–164): fixed base, optional `-msgtype=` from the `msgtype`
environment variable, then the whitespace-split `RTLAMR_ARGS`, with stderr
redirected into stdout. -/
def rtlamrPopen (env : String → Option String) : PopenCall :=
  let cmd := ["/usr/bin/rtlamr", "-format=json"]
  let cmd :=
    match env "msgtype" with
    | some v => cmd ++ ["-msgtype=" ++ v]
    | none => cmd
  let cmd := cmd ++ pySplit ((env "RTLAMR_ARGS").getD "")
  { args := cmd, stdoutPipe := true, stderrToStdout := true, universalNewlines := true }

/-- The debug publish issued for one parsed reading (line 174): topic
`<base_topic>/debug`, payload `json.dumps(data)`, default retain/qos. -/
def debugPub (base_topic : String) (v : Json) : Pub :=
  { topic := base_topic ++ "/debug", payload := dumpsStr v, retain := false, qos := 0 }

/-- One iteration of the relay loop (lines 166–176): strip the line, skip it
when empty, log it, try to parse it, and publish the re-serialized value when
a sender is configured; a parse failure just moves on. Returns the logs and
publish calls the iteration produces. -/
def processLine (base_topic : String) (hasSender : Bool) (line : String) :
    List LogLine × List Pub :=
  let l := pyStrip line
  if l.data.isEmpty then ([], [])
  else
    match parseJson l with
    | some v => ([⟨LogLevel.info, l⟩], if hasSender then [debugPub base_topic v] else [])
    | none => ([⟨LogLevel.info, l⟩], [])

/-- The relay loop over the decoder's whole output (the `for line in
rtlamr_proc.stdout` loop ends at EOF): logs and publishes, in order. -/
def relay (base_topic : String) (hasSender : Bool) : List String → List LogLine × List Pub
  | [] => ([], [])
  | line :: rest =>
    let r := processLine base_topic hasSender line
    let rs := relay base_topic hasSender rest
    (r.1 ++ rs.1, r.2 ++ rs.2)

/-- The publish calls the relay issues. -/
def relayPubs (base_topic : String) (hasSender : Bool) (lines : List String) : List Pub :=
  (relay base_topic hasSender lines).2

/-- The log lines the relay emits. -/
def relayLogs (base_topic : String) (hasSender : Bool) (lines : List String) : List LogLine :=
  (relay base_topic hasSender lines).1

/-- Every broker publish attempt over a whole process lifetime in listen
mode: those of the relay loop followed by those of the shutdown path, both
governed by the one `mqtt_sender` global set in line 156. -/
def lifetimePubs (env : String → Option String) (mqttConf : MqttConfDict)
    (base_topic : String) (lines : List String) (rtltcp rtlamr : Option PyProc)
    (outcome : PublishOutcome) : List Pub :=
  let sender := listenModeSender env mqttConf
  relayPubs base_topic sender.isSome lines ++
    (shutdownTrace rtltcp rtlamr sender outcome).filterMap fun e =>
      match e with
      | SEv.publishOffline t p r _ => some { topic := t, payload := p, retain := r, qos := 0 }
      | _ => none

/-! ## `__main__` mode selection (lines 181–193) -/

/-- `os.environ.get('LISTEN_ONLY', '').lower() in ['yes','true']`. -/
def listenOnlyEnvFlag (v : Option String) : Bool :=
  let l := pyLower (v.getD "")
  l == "yes" || l == "true"

/-- Line 188: `cfg['general'].get('listen_only', False) or
os.environ.get('LISTEN_ONLY', '').lower() in ['yes','true']`. The first
argument is the truthiness of the configured `general.listen_only` value. -/
def running_in_listen_only_mode (cfgListenOnlyTruthy : Bool)
    (env : String → Option String) : Bool :=
  cfgListenOnlyTruthy || listenOnlyEnvFlag (env "LISTEN_ONLY")

/-- What `__main__` does after loading the configuration. -/
inductive MainAction where
  | enterListenMode
  | logNormalModeUnimplemented
deriving Repr, DecidableEq

/-- Lines 190–193: dispatch on the listen-only flag. -/
def mainDispatch (cfgListenOnlyTruthy : Bool) (env : String → Option String) : MainAction :=
  if running_in_listen_only_mode cfgListenOnlyTruthy env then MainAction.enterListenMode
  else MainAction.logNormalModeUnimplemented

/-! ## Concrete sample data used by witnesses -/

/-- A decoder output line: `{"ID": 123}`. -/
def sampleLine : String :=
  String.mk ['\x7b', '"', 'I', 'D', '"', ':', ' ', '1', '2', '3', '\x7d']

/-- The value `json.loads` yields for `sampleLine`. -/
def sampleVal : Json := Json.obj [("ID", Json.num 123)]

/-- An `mqtt` configuration dict with no keys set. -/
def emptyMqttConf : MqttConfDict :=
  { host := none, port := none, user := none, password := none, base_topic := none,
    tls_enabled := none, tls_insecure := none, tls_ca := none, tls_cert := none,
    tls_keyfile := none }

/-- A sender configured against a concrete broker host. -/
def cxSender : MqttSender :=
  MqttSender.init { emptyMqttConf with host := some "mqtt.example.com" }

/-- Does `pattern` occur as a contiguous subsequence of the list? -/
def containsSeq (pattern : List Char) : List Char → Bool
  | [] => pattern.isEmpty
  | c :: rest => pattern.isPrefixOf (c :: rest) || containsSeq pattern rest

/-! # Theorems -/

/-! ## Character and whitespace lemmas -/

theorem skipWs_cons_not_ws {c : Char} (cs : List Char) (h : isWsChar c = false) :
    skipWs (c :: cs) = c :: cs := by
  simp [skipWs, h]

theorem skipWs_cons_ws {c : Char} (cs : List Char) (h : isWsChar c = true) :
    skipWs (c :: cs) = skipWs cs := by
  simp [skipWs, h]

theorem isDigitChar_digitCharOf {d : Nat} (h : d < 10) :
    isDigitChar (digitCharOf d) = true := by
  interval_cases d <;> decide

theorem digitVal_digitCharOf {d : Nat} (h : d < 10) :
    digitVal (digitCharOf d) = d := by
  interval_cases d <;> decide

theorem isDigitChar_facts {c : Char} (h : isDigitChar c = true) :
    c ≠ '"' ∧ c ≠ '[' ∧ c ≠ '\x7b' ∧ c ≠ '-' ∧ c ≠ 'n' ∧ c ≠ 't' ∧ c ≠ 'f'
      ∧ isWsChar c = false := by
  refine ⟨?_, ?_, ?_, ?_, ?_, ?_, ?_, ?_⟩
  · rintro rfl; exact absurd h (by decide)
  · rintro rfl; exact absurd h (by decide)
  · rintro rfl; exact absurd h (by decide)
  · rintro rfl; exact absurd h (by decide)
  · rintro rfl; exact absurd h (by decide)
  · rintro rfl; exact absurd h (by decide)
  · rintro rfl; exact absurd h (by decide)
  · by_contra hws
    have hws' : isWsChar c = true := by
      cases hw : isWsChar c
      · exact absurd hw hws
      · rfl
    have : ((c = ' ' ∨ c = '\t') ∨ c = '\n') ∨ c = '\r' := by
      simpa [isWsChar] using hws'
    rcases this with ((rfl | rfl) | rfl) | rfl <;> exact absurd h (by decide)

theorem isDelim_head {c : Char} {cs : List Char} (h : isDelim (c :: cs) = true) :
    isDigitChar c = false := by
  have : (c = ',' ∨ c = ']') ∨ c = '\x7d' := by simpa [isDelim] using h
  rcases this with (rfl | rfl) | rfl <;> decide

/-! ## Decimal numerals: printing then reading -/

theorem printNatCore_eq (fuel : Nat) :
    ∀ n acc, n ≤ fuel →
      printNatCore fuel n acc = ((Nat.digits 10 n).reverse.map digitCharOf) ++ acc := by
  induction fuel with
  | zero =>
    intro n acc hn
    interval_cases n
    simp [printNatCore]
  | succ f ih =>
    intro n acc hn
    by_cases h0 : n = 0
    · subst h0; simp [printNatCore]
    · have hlt : n / 10 < n := Nat.div_lt_self (Nat.pos_of_ne_zero h0) (by norm_num)
      rw [printNatCore, if_neg h0, ih (n / 10) _ (by omega)]
      rw [Nat.digits_def' (by norm_num : 1 < 10) (Nat.pos_of_ne_zero h0)]
      simp

theorem printNat_eq (n : Nat) :
    printNat n = if n = 0 then ['0'] else (Nat.digits 10 n).reverse.map digitCharOf := by
  by_cases h0 : n = 0
  · subst h0; simp [printNat]
  · rw [printNat, if_neg h0, if_neg h0, printNatCore_eq n n [] (Nat.le_refl n)]
    simp

theorem printNat_head (n : Nat) :
    ∃ c t, printNat n = c :: t ∧ isDigitChar c = true := by
  by_cases h0 : n = 0
  · subst h0
    exact ⟨'0', [], by simp [printNat], by decide⟩
  · rw [printNat_eq, if_neg h0]
    have hne : Nat.digits 10 n ≠ [] := Nat.digits_ne_nil_iff_ne_zero.mpr h0
    have hrev : (Nat.digits 10 n).reverse ≠ [] := by
      simpa using hne
    obtain ⟨d, ds, hds⟩ := List.exists_cons_of_ne_nil hrev
    have hd : d < 10 := by
      have hmem : d ∈ Nat.digits 10 n := by
        rw [← List.mem_reverse, hds]; simp
      exact Nat.digits_lt_base (by norm_num) hmem
    exact ⟨digitCharOf d, ds.map digitCharOf, by rw [hds]; simp,
      isDigitChar_digitCharOf hd⟩

theorem readDigits_not_digit {c : Char} (cs : List Char) (acc : Nat)
    (h : isDigitChar c = false) :
    readDigits (c :: cs) acc = (acc, c :: cs) := by
  simp [readDigits, h]

theorem readDigits_delim (rest : List Char) (acc : Nat) (h : isDelim rest = true) :
    readDigits rest acc = (acc, rest) := by
  cases rest with
  | nil => simp [readDigits]
  | cons c cs => exact readDigits_not_digit cs acc (isDelim_head h)

theorem readDigits_digits (ds : List Nat) (rest : List Char) :
    ∀ acc, (∀ d ∈ ds, d < 10) →
      readDigits (ds.map digitCharOf ++ rest) acc
        = readDigits rest (ds.foldl (fun a d => 10 * a + d) acc) := by
  induction ds with
  | nil => intro acc _; simp
  | cons d ds ih =>
    intro acc hds
    have hd : d < 10 := hds d (by simp)
    simp only [List.map_cons, List.cons_append, readDigits,
      isDigitChar_digitCharOf hd, if_true, digitVal_digitCharOf hd, List.foldl_cons]
    exact ih (10 * acc + d) (fun e he => hds e (by simp [he]))

theorem foldr_eq_ofDigits (L : List Nat) :
    L.foldr (fun d a => 10 * a + d) 0 = Nat.ofDigits 10 L := by
  induction L with
  | nil => simp [Nat.ofDigits_nil]
  | cons d L ih => simp [Nat.ofDigits_cons, ih]; omega

theorem foldl_digits_reverse (n : Nat) :
    ((Nat.digits 10 n).reverse).foldl (fun a d => 10 * a + d) 0 = n := by
  rw [List.foldl_reverse]
  have : (Nat.digits 10 n).foldr (fun d a => 10 * a + d) 0 = Nat.ofDigits 10 (Nat.digits 10 n) :=
    foldr_eq_ofDigits _
  simpa [this] using congrArg (fun x => x) (Nat.ofDigits_digits 10 n)

theorem pNatLit_printNat (n : Nat) (rest : List Char) (h : isDelim rest = true) :
    pNatLit (printNat n ++ rest) = some (n, rest) := by
  obtain ⟨c, t, hct, hdig⟩ := printNat_head n
  have hval : readDigits (printNat n ++ rest) 0 = (n, rest) := by
    by_cases h0 : n = 0
    · subst h0
      have h00 : printNat 0 = [0].map digitCharOf := by simp [printNat]; decide
      rw [h00, readDigits_digits [0] rest 0 (by simp), readDigits_delim rest _ h]
      simp
    · rw [printNat_eq, if_neg h0,
        readDigits_digits _ rest 0
          (fun d hd => Nat.digits_lt_base (by norm_num) (List.mem_reverse.mp hd)),
        readDigits_delim rest _ h, foldl_digits_reverse]
  rw [hct] at hval ⊢
  simp only [List.cons_append] at hval ⊢
  rw [pNatLit, if_pos hdig, hval]

/-! ## Parsing printed values: numerals, strings, keywords -/

theorem pVal_printInt (fuel : Nat) (n : Int) (rest : List Char) (h : isDelim rest = true) :
    pVal (fuel + 1) (printInt n ++ rest) = some (Json.num n, rest) := by
  by_cases hn : n < 0
  · have h1 : printInt n ++ rest = '-' :: (printNat n.natAbs ++ rest) := by
      rw [printInt, if_pos hn, List.cons_append]
    rw [h1]
    simp only [pVal]
    rw [skipWs_cons_not_ws _ (by decide)]
    simp only [pNatLit_printNat n.natAbs rest h]
    simp
    rw [abs_of_neg hn, neg_neg]
  · have h1 : printInt n ++ rest = printNat n.toNat ++ rest := by
      rw [printInt, if_neg hn]
    obtain ⟨c, t, hct, hdig⟩ := printNat_head n.toNat
    obtain ⟨hq, hbk, hbr, hmi, hn', ht', hf', hws⟩ := isDigitChar_facts hdig
    have h2 : printNat n.toNat ++ rest = c :: (t ++ rest) := by
      rw [hct, List.cons_append]
    rw [h1, h2]
    simp only [pVal]
    rw [skipWs_cons_not_ws _ hws]
    have hlit : pNatLit (c :: (t ++ rest)) = some (n.toNat, rest) := by
      rw [← List.cons_append, ← hct]
      exact pNatLit_printNat n.toNat rest h
    simp only [if_neg hq, if_neg hbk, if_neg hbr, if_neg hmi, if_neg hn', if_neg ht',
      if_neg hf', hdig, if_pos, hlit]
    have hcast : ((n.toNat : Nat) : Int) = n := Int.toNat_of_nonneg (by omega)
    simp [hcast]

theorem pStringLit_cons (c : Char) (cs : List Char) :
    pStringLit (c :: cs) =
      if c = '"' then some ([], cs)
      else if c = '\\' then
        match cs with
        | [] => none
        | e :: cs' =>
          match pStringLit cs' with
          | none => none
          | some (body, rest) => some (unescChar e :: body, rest)
      else
        match pStringLit cs with
        | none => none
        | some (body, rest) => some (c :: body, rest) := by
  rw [pStringLit.eq_def]

theorem pStringLit_escStr (cs : List Char) :
    ∀ rest, pStringLit (escStr cs ++ '"' :: rest) = some (cs, rest) := by
  induction cs with
  | nil =>
    intro rest
    simp only [escStr, List.nil_append]
    rw [pStringLit_cons]
    simp
  | cons c cs ih =>
    intro rest
    by_cases hc : c = '"' ∨ c = '\\'
    · have hesc : escChar c = ['\\', c] := by
        rcases hc with rfl | rfl <;> simp [escChar]
      have hun : unescChar c = c := by
        rcases hc with rfl | rfl <;> decide
      simp only [escStr, hesc, List.cons_append, List.append_assoc]
      rw [pStringLit_cons]
      simp [ih rest, hun]
    · push_neg at hc
      have hesc : escChar c = [c] := by
        simp [escChar, hc.1, hc.2]
      simp only [escStr, hesc, List.cons_append, List.append_assoc, List.nil_append]
      rw [pStringLit_cons]
      simp [hc.1, hc.2, ih rest]

/-! ## Structural facts about the printer -/

theorem isDigitChar_not_close {c : Char} (h : isDigitChar c = true) :
    c ≠ ']' ∧ c ≠ ',' ∧ c ≠ '\x7d' := by
  refine ⟨?_, ?_, ?_⟩ <;> · rintro rfl; exact absurd h (by decide)

theorem pVal_cons_ws (fuel : Nat) {c : Char} (s : List Char) (h : isWsChar c = true) :
    pVal fuel (c :: s) = pVal fuel s := by
  cases fuel with
  | zero => rfl
  | succ n =>
    simp only [pVal]
    rw [skipWs_cons_ws _ h]

theorem dumpJ_head (v : Json) :
    ∃ c t, dumpJ v = c :: t ∧ isWsChar c = false ∧ c ≠ ']' ∧ c ≠ '\x7d' ∧ c ≠ ',' := by
  cases v with
  | null => exact ⟨'n', ['u', 'l', 'l'], by simp [dumpJ], by decide, by decide, by decide, by decide⟩
  | bool b =>
    cases b with
    | true => exact ⟨'t', ['r', 'u', 'e'], by simp [dumpJ], by decide, by decide, by decide, by decide⟩
    | false =>
      exact ⟨'f', ['a', 'l', 's', 'e'], by simp [dumpJ], by decide, by decide, by decide, by decide⟩
  | num m =>
    by_cases hm : m < 0
    · exact ⟨'-', printNat m.natAbs, by simp [dumpJ, printInt, hm], by decide, by decide,
        by decide, by decide⟩
    · obtain ⟨c, t, hct, hdig⟩ := printNat_head m.toNat
      obtain ⟨hc1, hc2, hc3⟩ := isDigitChar_not_close hdig
      have hws := (isDigitChar_facts hdig).2.2.2.2.2.2.2
      exact ⟨c, t, by simp [dumpJ, printInt, hm, hct], hws, hc1, hc3, hc2⟩
  | str s =>
    exact ⟨'"', escStr s.data ++ ['"'], by simp [dumpJ], by decide, by decide, by decide, by decide⟩
  | arr xs =>
    exact ⟨'[', dumpArr xs ++ [']'], by simp [dumpJ], by decide, by decide, by decide, by decide⟩
  | obj ms =>
    exact ⟨'\x7b', dumpObj ms ++ ['\x7d'], by simp [dumpJ], by decide, by decide, by decide,
      by decide⟩

theorem isDelim_dumpArrTail (xs : List Json) (rest : List Char) :
    isDelim (dumpArrTail xs ++ ']' :: rest) = true := by
  cases xs with
  | nil => simp [dumpArrTail, isDelim]
  | cons x xs => simp [dumpArrTail, isDelim]

theorem isDelim_dumpObjTail (ms : List (String × Json)) (rest : List Char) :
    isDelim (dumpObjTail ms ++ '\x7d' :: rest) = true := by
  cases ms with
  | nil => simp [dumpObjTail, isDelim]
  | cons m ms =>
    obtain ⟨k, v⟩ := m
    simp [dumpObjTail, isDelim]

theorem needJ_pos (v : Json) : 1 ≤ needJ v := by
  cases v <;> simp [needJ]

theorem needElems_pos (xs : List Json) : 1 ≤ needElems xs := by
  cases xs <;> simp [needElems]

theorem needTail_pos (xs : List Json) : 1 ≤ needTail xs := by
  cases xs <;> simp [needTail]

theorem needMembers_pos (ms : List (String × Json)) : 1 ≤ needMembers ms := by
  cases ms with
  | nil => simp [needMembers]
  | cons m ms => obtain ⟨k, v⟩ := m; simp [needMembers]

theorem needMTail_pos (ms : List (String × Json)) : 1 ≤ needMTail ms := by
  cases ms with
  | nil => simp [needMTail]
  | cons m ms => obtain ⟨k, v⟩ := m; simp [needMTail]

theorem stringMk_data (s : String) : String.mk s.data = s := rfl

/-! ## The printer–parser roundtrip -/

theorem parse_print_aux (fuel : Nat) :
    (∀ v rest, needJ v ≤ fuel → isDelim rest = true →
        pVal fuel (dumpJ v ++ rest) = some (v, rest))
    ∧ (∀ (k : String) (v : Json) rest, needJ v < fuel → isDelim rest = true →
        pMember fuel (dumpMember k v ++ rest) = some ((k, v), rest))
    ∧ (∀ xs rest, needElems xs ≤ fuel →
        pElems fuel (dumpArr xs ++ ']' :: rest) = some (xs, rest))
    ∧ (∀ xs rest, needTail xs ≤ fuel →
        pElemsTail fuel (dumpArrTail xs ++ ']' :: rest) = some (xs, rest))
    ∧ (∀ ms rest, needMembers ms ≤ fuel →
        pMembers fuel (dumpObj ms ++ '\x7d' :: rest) = some (ms, rest))
    ∧ (∀ ms rest, needMTail ms ≤ fuel →
        pMembersTail fuel (dumpObjTail ms ++ '\x7d' :: rest) = some (ms, rest)) := by
  induction fuel with
  | zero =>
    refine ⟨?_, ?_, ?_, ?_, ?_, ?_⟩
    · intro v rest hf _
      exact absurd hf (by have := needJ_pos v; omega)
    · intro k v rest hf _
      exact absurd hf (by omega)
    · intro xs rest hf
      exact absurd hf (by have := needElems_pos xs; omega)
    · intro xs rest hf
      exact absurd hf (by have := needTail_pos xs; omega)
    · intro ms rest hf
      exact absurd hf (by have := needMembers_pos ms; omega)
    · intro ms rest hf
      exact absurd hf (by have := needMTail_pos ms; omega)
  | succ n ih =>
    obtain ⟨ihP, ihM, ihQ, ihQT, ihR, ihRT⟩ := ih
    refine ⟨?_, ?_, ?_, ?_, ?_, ?_⟩
    -- pVal on a printed value
    · intro v rest hf hd
      cases v with
      | null =>
        simp only [dumpJ, List.cons_append, List.nil_append, pVal]
        rw [skipWs_cons_not_ws _ (by decide)]
        simp [stripLit]
      | bool b =>
        cases b with
        | true =>
          simp only [dumpJ, List.cons_append, List.nil_append, pVal]
          rw [skipWs_cons_not_ws _ (by decide)]
          simp [stripLit]
        | false =>
          simp only [dumpJ, List.cons_append, List.nil_append, pVal]
          rw [skipWs_cons_not_ws _ (by decide)]
          simp [stripLit]
      | num m =>
        simp only [dumpJ]
        exact pVal_printInt n m rest hd
      | str s =>
        have hshape : dumpJ (Json.str s) ++ rest
            = '"' :: (escStr s.data ++ '"' :: rest) := by
          simp [dumpJ]
        rw [hshape]
        simp only [pVal]
        rw [skipWs_cons_not_ws _ (by decide)]
        simp [pStringLit_escStr s.data rest, stringMk_data]
      | arr xs =>
        have hxs : needElems xs ≤ n := by
          simp only [needJ] at hf; omega
        have hshape : dumpJ (Json.arr xs) ++ rest
            = '[' :: (dumpArr xs ++ ']' :: rest) := by
          simp [dumpJ]
        rw [hshape]
        simp only [pVal]
        rw [skipWs_cons_not_ws _ (by decide)]
        simp [ihQ xs rest hxs]
      | obj ms =>
        have hms : needMembers ms ≤ n := by
          simp only [needJ] at hf; omega
        have hshape : dumpJ (Json.obj ms) ++ rest
            = '\x7b' :: (dumpObj ms ++ '\x7d' :: rest) := by
          simp [dumpJ]
        rw [hshape]
        simp only [pVal]
        rw [skipWs_cons_not_ws _ (by decide)]
        simp [ihR ms rest hms]
    -- pMember on a printed member
    · intro k v rest hf hd
      have hv : needJ v ≤ n := by omega
      have hshape : dumpMember k v ++ rest
          = '"' :: (escStr k.data ++ '"' :: (':' :: (' ' :: (dumpJ v ++ rest)))) := by
        simp [dumpMember]
      rw [hshape]
      simp only [pMember]
      rw [skipWs_cons_not_ws _ (by decide)]
      simp only [pStringLit_escStr k.data, if_pos]
      rw [skipWs_cons_not_ws _ (by decide)]
      simp only [pVal_cons_ws n _ (by decide : isWsChar ' ' = true)]
      rw [ihP v rest hv hd]
      simp [stringMk_data]
    -- pElems on printed elements
    · intro xs rest hf
      cases xs with
      | nil =>
        simp only [dumpArr, List.nil_append, pElems]
        rw [skipWs_cons_not_ws _ (by decide)]
        simp
      | cons x xs' =>
        have hx : needJ x ≤ n := by
          simp only [needElems] at hf; omega
        have hxs : needTail xs' ≤ n := by
          simp only [needElems] at hf; omega
        obtain ⟨c, t, hct, hws, hbr, hbrc, hcm⟩ := dumpJ_head x
        have hre : dumpArr (x :: xs') ++ ']' :: rest
            = c :: (t ++ (dumpArrTail xs' ++ ']' :: rest)) := by
          simp [dumpArr, hct]
        rw [hre]
        simp only [pElems]
        rw [skipWs_cons_not_ws _ hws]
        simp only [if_neg hbr]
        have hback : c :: (t ++ (dumpArrTail xs' ++ ']' :: rest))
            = dumpJ x ++ (dumpArrTail xs' ++ ']' :: rest) := by
          rw [hct, List.cons_append]
        rw [hback, ihP x _ hx (isDelim_dumpArrTail xs' rest)]
        simp [ihQT xs' rest hxs]
    -- pElemsTail on printed trailing elements
    · intro xs rest hf
      cases xs with
      | nil =>
        simp only [dumpArrTail, List.nil_append, pElemsTail]
        rw [skipWs_cons_not_ws _ (by decide)]
        simp
      | cons x xs' =>
        have hx : needJ x ≤ n := by
          simp only [needTail] at hf; omega
        have hxs : needTail xs' ≤ n := by
          simp only [needTail] at hf; omega
        have hre : dumpArrTail (x :: xs') ++ ']' :: rest
            = ',' :: (' ' :: (dumpJ x ++ (dumpArrTail xs' ++ ']' :: rest))) := by
          simp [dumpArrTail]
        rw [hre]
        simp only [pElemsTail]
        rw [skipWs_cons_not_ws _ (by decide)]
        simp only [if_neg (by decide : ¬(',' = ']')), if_pos]
        rw [pVal_cons_ws n _ (by decide : isWsChar ' ' = true),
          ihP x _ hx (isDelim_dumpArrTail xs' rest)]
        simp [ihQT xs' rest hxs]
    -- pMembers on printed members
    · intro ms rest hf
      cases ms with
      | nil =>
        simp only [dumpObj, List.nil_append, pMembers]
        rw [skipWs_cons_not_ws _ (by decide)]
        simp
      | cons m ms' =>
        obtain ⟨k, v⟩ := m
        have hv : needJ v < n := by
          simp only [needMembers] at hf; omega
        have hms : needMTail ms' ≤ n := by
          simp only [needMembers] at hf; omega
        have hre : dumpObj ((k, v) :: ms') ++ '\x7d' :: rest
            = '"' :: ((escStr k.data ++ '"' :: (':' :: (' ' :: dumpJ v)))
                ++ (dumpObjTail ms' ++ '\x7d' :: rest)) := by
          simp [dumpObj, dumpMember]
        rw [hre]
        simp only [pMembers]
        rw [skipWs_cons_not_ws _ (by decide)]
        simp only [if_neg (by decide : ¬('"' = '\x7d'))]
        have hback : '"' :: ((escStr k.data ++ '"' :: (':' :: (' ' :: dumpJ v)))
              ++ (dumpObjTail ms' ++ '\x7d' :: rest))
            = dumpMember k v ++ (dumpObjTail ms' ++ '\x7d' :: rest) := by
          simp [dumpMember]
        rw [hback, ihM k v _ hv (isDelim_dumpObjTail ms' rest)]
        simp [ihRT ms' rest hms]
    -- pMembersTail on printed trailing members
    · intro ms rest hf
      cases ms with
      | nil =>
        simp only [dumpObjTail, List.nil_append, pMembersTail]
        rw [skipWs_cons_not_ws _ (by decide)]
        simp
      | cons m ms' =>
        obtain ⟨k, v⟩ := m
        have hv : needJ v < n := by
          simp only [needMTail] at hf; omega
        have hms : needMTail ms' ≤ n := by
          simp only [needMTail] at hf; omega
        have hre : dumpObjTail ((k, v) :: ms') ++ '\x7d' :: rest
            = ',' :: (' ' :: (dumpMember k v ++ (dumpObjTail ms' ++ '\x7d' :: rest))) := by
          simp [dumpObjTail]
        rw [hre]
        simp only [pMembersTail]
        rw [skipWs_cons_not_ws _ (by decide)]
        simp only [if_neg (by decide : ¬(',' = '\x7d')), if_pos]
        have hmem : pMember n (' ' :: (dumpMember k v ++ (dumpObjTail ms' ++ '\x7d' :: rest)))
            = some ((k, v), dumpObjTail ms' ++ '\x7d' :: rest) := by
          have hws : pMember n (' ' :: (dumpMember k v ++ (dumpObjTail ms' ++ '\x7d' :: rest)))
              = pMember n (dumpMember k v ++ (dumpObjTail ms' ++ '\x7d' :: rest)) := by
            cases n with
            | zero => rfl
            | succ n' =>
              simp only [pMember]
              rw [skipWs_cons_ws _ (by decide)]
          rw [hws]
          exact ihM k v _ hv (isDelim_dumpObjTail ms' rest)
        rw [hmem]
        simp [ihRT ms' rest hms]

/-! ## Fuel bounds: the default fuel of `parseJson` covers printed values -/

theorem printNat_length_pos (n : Nat) : 1 ≤ (printNat n).length := by
  obtain ⟨c, t, hct, _⟩ := printNat_head n
  simp [hct]

theorem printInt_length_pos (m : Int) : 1 ≤ (printInt m).length := by
  rw [printInt]
  by_cases hm : m < 0
  · simp [hm]
  · simp [hm, printNat_length_pos]

theorem dumpJ_length_pos (v : Json) : 1 ≤ (dumpJ v).length := by
  cases v with
  | null => simp [dumpJ]
  | bool b => cases b <;> simp [dumpJ]
  | num m => simp [dumpJ, printInt_length_pos]
  | str s => simp [dumpJ]
  | arr xs => simp [dumpJ]
  | obj ms => simp [dumpJ]

mutual

theorem needJ_le_dump (v : Json) : needJ v ≤ 2 * (dumpJ v).length := by
  cases v with
  | null => simp [needJ, dumpJ]
  | bool b => cases b <;> simp [needJ, dumpJ]
  | num m =>
    have := printInt_length_pos m
    simp only [needJ, dumpJ]
    omega
  | str s =>
    simp only [needJ, dumpJ, List.length_cons, List.length_append, List.length_singleton]
    omega
  | arr xs =>
    have h := needElems_le_dump xs
    simp only [needJ, dumpJ]
    simp only [List.length_cons, List.length_append, List.length_singleton]
    omega
  | obj ms =>
    have h := needMembers_le_dump ms
    simp only [needJ, dumpJ]
    simp only [List.length_cons, List.length_append, List.length_singleton]
    omega
termination_by sizeOf v

theorem needElems_le_dump (xs : List Json) : needElems xs ≤ 2 * (dumpArr xs).length + 1 := by
  cases xs with
  | nil => simp [needElems, dumpArr]
  | cons x xs' =>
    have h1 := needJ_le_dump x
    have h2 := needTail_le_dump xs'
    have h3 := dumpJ_length_pos x
    simp only [needElems, dumpArr, List.length_append]
    omega
termination_by sizeOf xs

theorem needTail_le_dump (xs : List Json) : needTail xs ≤ 2 * (dumpArrTail xs).length + 1 := by
  cases xs with
  | nil => simp [needTail, dumpArrTail]
  | cons x xs' =>
    have h1 := needJ_le_dump x
    have h2 := needTail_le_dump xs'
    simp only [needTail, dumpArrTail, List.length_cons, List.length_append]
    omega
termination_by sizeOf xs

theorem needMembers_le_dump (ms : List (String × Json)) :
    needMembers ms ≤ 2 * (dumpObj ms).length + 1 := by
  cases ms with
  | nil => simp [needMembers, dumpObj]
  | cons m ms' =>
    obtain ⟨k, v⟩ := m
    have h1 := needJ_le_dump v
    have h2 := needMTail_le_dump ms'
    simp only [needMembers, dumpObj, dumpMember, List.length_append, List.length_cons]
    omega
termination_by sizeOf ms

theorem needMTail_le_dump (ms : List (String × Json)) :
    needMTail ms ≤ 2 * (dumpObjTail ms).length + 1 := by
  cases ms with
  | nil => simp [needMTail, dumpObjTail]
  | cons m ms' =>
    obtain ⟨k, v⟩ := m
    have h1 := needJ_le_dump v
    have h2 := needMTail_le_dump ms'
    simp only [needMTail, dumpObjTail, dumpMember, List.length_cons, List.length_append]
    omega
termination_by sizeOf ms

end

/-- The roundtrip at the heart of the relay: re-serializing a parsed value
with the modelled `json.dumps` and parsing it again with the modelled
`json.loads` recovers the same value. -/
theorem parseJson_dumpsStr (v : Json) : parseJson (dumpsStr v) = some v := by
  have hle : needJ v ≤ 2 * (dumpJ v).length + 2 := by
    have := needJ_le_dump v
    omega
  have h := (parse_print_aux (2 * (dumpJ v).length + 2)).1 v [] hle (by decide)
  rw [List.append_nil] at h
  show parseJsonChars (String.mk (dumpJ v)).data = some v
  show parseJsonChars (dumpJ v) = some v
  rw [parseJsonChars, h]
  simp [skipWs]

/-! ## Relay-loop helper lemmas -/

theorem parseJson_nil_data {s : String} (h : s.data = []) : parseJson s = none := by
  unfold parseJson
  rw [h]
  rfl

theorem parsed_strip_ne_empty {line : String} {v : Json}
    (h : parseJson (pyStrip line) = some v) : (pyStrip line).data.isEmpty = false := by
  cases hemp : (pyStrip line).data with
  | nil =>
    rw [parseJson_nil_data hemp] at h
    exact Option.noConfusion h
  | cons c cs =>
    rfl

theorem processLine_parsed (base_topic line : String) (v : Json)
    (h : parseJson (pyStrip line) = some v) :
    processLine base_topic true line
      = ([⟨LogLevel.info, pyStrip line⟩], [debugPub base_topic v]) := by
  have hne := parsed_strip_ne_empty h
  simp [processLine, hne, h]

theorem processLine_skip (base_topic : String) (hasSender : Bool) (line : String)
    (h : (pyStrip line).data.isEmpty = true ∨ parseJson (pyStrip line) = none) :
    (processLine base_topic hasSender line).2 = [] := by
  rcases h with h | h
  · simp [processLine, h]
  · cases hemp : (pyStrip line).data.isEmpty
    · simp [processLine, hemp, h]
    · simp [processLine, hemp]

theorem processLine_log (base_topic : String) (hasSender : Bool) (line : String)
    (h : (pyStrip line).data.isEmpty = false) :
    (processLine base_topic hasSender line).1 = [⟨LogLevel.info, pyStrip line⟩] := by
  cases hp : parseJson (pyStrip line) <;> simp [processLine, h, hp]

theorem processLine_noSender (base_topic line : String) :
    (processLine base_topic false line).2 = [] := by
  cases hemp : (pyStrip line).data.isEmpty
  · cases hp : parseJson (pyStrip line) <;> simp [processLine, hemp, hp]
  · simp [processLine, hemp]

theorem relay_cons (base_topic : String) (hasSender : Bool) (line : String)
    (lines : List String) :
    relay base_topic hasSender (line :: lines)
      = ((processLine base_topic hasSender line).1 ++ (relay base_topic hasSender lines).1,
         (processLine base_topic hasSender line).2 ++ (relay base_topic hasSender lines).2) := rfl

theorem relayPubs_noSender (base_topic : String) (lines : List String) :
    relayPubs base_topic false lines = [] := by
  induction lines with
  | nil => rfl
  | cons line rest ih =>
    unfold relayPubs at ih ⊢
    rw [relay_cons]
    simp [processLine_noSender, ih]

theorem relayLogs_mem (base_topic : String) (hasSender : Bool) (lines : List String) :
    ∀ line ∈ lines, (pyStrip line).data.isEmpty = false →
      LogLine.mk LogLevel.info (pyStrip line) ∈ relayLogs base_topic hasSender lines := by
  induction lines with
  | nil =>
    intro line h
    exact absurd h (List.not_mem_nil line)
  | cons l rest ih =>
    intro line hmem hne
    unfold relayLogs
    rw [relay_cons]
    rcases List.mem_cons.mp hmem with rfl | hmem'
    · simp [processLine_log base_topic hasSender line hne]
    · have hr := ih line hmem' hne
      unfold relayLogs at hr
      simp [hr]

/-! ## Substring search -/

theorem containsSeq_iff (pattern : List Char) (l : List Char) :
    containsSeq pattern l = true ↔ pattern <:+: l := by
  induction l with
  | nil =>
    simp [containsSeq, List.isEmpty_iff]
  | cons c rest ih =>
    simp only [containsSeq, Bool.or_eq_true, ih, List.isPrefixOf_iff_prefix]
    exact (List.infix_cons_iff).symm

theorem containsSeq_append_self (pattern pre : List Char) :
    containsSeq pattern (pre ++ pattern) = true := by
  rw [containsSeq_iff]
  exact (List.suffix_append pre pattern).isInfix

/-! ## Config helper lemmas -/

theorem loadConfigAt_exit (p : String) (code : Nat) (log : String)
    (h : loadConfigAt p = ConfigOutcome.exited code log) : code = 1 := by
  unfold loadConfigAt at h
  split at h
  · exact absurd h (by simp)
  · split at h
    · exact absurd h (by simp)
    · simp only [ConfigOutcome.exited.injEq] at h
      omega

/-! # Claim theorems -/

/-- **C1**: in the relay loop with a configured broker client, every decoder
line whose stripped form is well-formed JSON yields exactly one publish call,
with topic `<base_topic>/debug` and a payload that, parsed as JSON, equals
the value parsed from the input line; every line that strips to empty or
fails to parse yields zero publish calls; and processing a line leaves the
handling of all subsequent lines unchanged (the relay continues). -/
theorem C1_relay_publishes (base_topic line : String) (lines : List String) :
    (∀ v, parseJson (pyStrip line) = some v →
        (processLine base_topic true line).2 = [debugPub base_topic v]
        ∧ (debugPub base_topic v).topic = base_topic ++ "/debug"
        ∧ parseJson (debugPub base_topic v).payload = some v)
    ∧ ((pyStrip line).data.isEmpty = true ∨ parseJson (pyStrip line) = none →
        (processLine base_topic true line).2 = [])
    ∧ relay base_topic true (line :: lines)
        = ((processLine base_topic true line).1 ++ (relay base_topic true lines).1,
           (processLine base_topic true line).2 ++ (relay base_topic true lines).2) := by
  refine ⟨?_, processLine_skip base_topic true line, rfl⟩
  intro v hv
  refine ⟨?_, rfl, parseJson_dumpsStr v⟩
  rw [processLine_parsed base_topic line v hv]

/-- Concrete instance of `C1_relay_publishes`: the line `{"ID": 123}` yields
exactly the one debug publish whose payload parses back to the same value,
and the line `not json` yields no publish. -/
theorem C1_relay_publishes_witness :
    ((processLine "rtlamr" true sampleLine).2 = [debugPub "rtlamr" sampleVal]
      ∧ (debugPub "rtlamr" sampleVal).topic = "rtlamr" ++ "/debug"
      ∧ parseJson (debugPub "rtlamr" sampleVal).payload = some sampleVal)
    ∧ (processLine "rtlamr" true "not json").2 = [] :=
  ⟨(C1_relay_publishes "rtlamr" sampleLine []).1 sampleVal (by rfl),
   (C1_relay_publishes "rtlamr" "not json" []).2.1 (Or.inr (by rfl))⟩

/-- **C2** (the code violates the claim): `shutdown` has no single-entry
guard, and CPython delivers a pending signal at the next bytecode boundary,
re-entering the handler. On the trace where a second SIGINT/SIGTERM arrives
after the first invocation's offline publish but before its `sys.exit(0)`,
the offline status is published twice (one exit still occurs) — against the
claimed exactly-one-publish invariant. For contrast, the single-signal trace
does publish exactly once and exit exactly once. -/
theorem C2_double_signal_double_publish :
    (sigRun true [SigEv.signal, SigEv.step, SigEv.step, SigEv.signal,
        SigEv.step, SigEv.step, SigEv.step]).offlinePublishes = 2
    ∧ (sigRun true [SigEv.signal, SigEv.step, SigEv.step, SigEv.signal,
        SigEv.step, SigEv.step, SigEv.step]).exits = 1
    ∧ (sigRun true [SigEv.signal, SigEv.step, SigEv.step, SigEv.step]).offlinePublishes = 1
    ∧ (sigRun true [SigEv.signal, SigEv.step, SigEv.step, SigEv.step]).exits = 1 :=
  ⟨rfl, rfl, rfl, rfl⟩

/-- **C3**: the shutdown trace is, in order: the stop block of `rtltcp_proc`
then of `rtlamr_proc` — where a running, unresponsive process gets
`terminate`, the 5-second wait, then `kill`, and a cooperative one is not
killed — then, exactly when a broker client is configured, one retained
`offline` publish to the availability topic, then `sys.exit(0)`; and the
final exit happens for every process state and every publish outcome (an
earlier failure does not prevent the later steps). -/
theorem C3_shutdown_order (rtltcp rtlamr : Option PyProc) (sender : Option MqttSender)
    (outcome : PublishOutcome) :
    shutdownTrace rtltcp rtlamr sender outcome
      = stopEvents 0 rtltcp ++ stopEvents 1 rtlamr
        ++ (match sender with
            | some s => [SEv.publishOffline s.availability_topic "offline" true
                ((s.publish s.availability_topic "offline" true 0 outcome).1)]
            | none => [])
        ++ [SEv.exitProcess 0]
    ∧ (∀ i p, p.alive = true → p.cooperative = false →
        stopEvents i (some p) = [SEv.terminate i, SEv.waitGrace i 5, SEv.kill i])
    ∧ (∀ i p, p.alive = true → p.cooperative = true →
        stopEvents i (some p) = [SEv.terminate i, SEv.waitGrace i 5])
    ∧ (shutdownTrace rtltcp rtlamr sender outcome).getLast? = some (SEv.exitProcess 0) := by
  refine ⟨rfl, ?_, ?_, ?_⟩
  · intro i p h1 h2
    simp [stopEvents, h1, h2]
  · intro i p h1 h2
    simp [stopEvents, h1, h2]
  · unfold shutdownTrace
    rw [List.getLast?_concat]

/-- Concrete instance of `C3_shutdown_order`: a running process that ignores
`terminate` is killed after the 5-second grace period. -/
theorem C3_shutdown_order_witness :
    stopEvents 0 (some { alive := true, cooperative := false })
      = [SEv.terminate 0, SEv.waitGrace 0 5, SEv.kill 0]
    ∧ stopEvents 1 (some { alive := true, cooperative := true })
      = [SEv.terminate 1, SEv.waitGrace 1 5] :=
  ⟨(C3_shutdown_order none none none PublishOutcome.success).2.1 0
      { alive := true, cooperative := false } rfl rfl,
   (C3_shutdown_order none none none PublishOutcome.success).2.2.1 1
      { alive := true, cooperative := true } rfl rfl⟩

/-- **C5**: invoking shutdown with a never-started handle (`None`) and an
already-exited handle is safe: both stop blocks are no-ops, the offline
publish attempt is still made exactly when a broker client is configured,
and the trace still ends in `sys.exit(0)`. -/
theorem C5_shutdown_safe (coop : Bool) (sender : Option MqttSender)
    (outcome : PublishOutcome) :
    stopEvents 0 none = []
    ∧ stopEvents 1 (some { alive := false, cooperative := coop }) = []
    ∧ shutdownTrace none (some { alive := false, cooperative := coop }) sender outcome
        = (match sender with
           | some s => [SEv.publishOffline s.availability_topic "offline" true
               ((s.publish s.availability_topic "offline" true 0 outcome).1)]
           | none => [])
          ++ [SEv.exitProcess 0]
    ∧ (shutdownTrace none (some { alive := false, cooperative := coop })
        sender outcome).getLast? = some (SEv.exitProcess 0) := by
  refine ⟨rfl, by simp [stopEvents], ?_, ?_⟩
  · unfold shutdownTrace
    simp [stopEvents]
  · unfold shutdownTrace
    rw [List.getLast?_concat]

/-- **C6**: within one relay instance, publishes occur in exactly the order
the lines were read: three lines that all parse produce exactly the three
corresponding debug publishes, in the same order. -/
theorem C6_publish_order (base_topic l1 l2 l3 : String) (v1 v2 v3 : Json)
    (h1 : parseJson (pyStrip l1) = some v1)
    (h2 : parseJson (pyStrip l2) = some v2)
    (h3 : parseJson (pyStrip l3) = some v3) :
    relayPubs base_topic true [l1, l2, l3]
      = [debugPub base_topic v1, debugPub base_topic v2, debugPub base_topic v3] := by
  unfold relayPubs
  rw [relay_cons, relay_cons, relay_cons,
    processLine_parsed base_topic l1 v1 h1, processLine_parsed base_topic l2 v2 h2,
    processLine_parsed base_topic l3 v3 h3]
  rfl

/-- Concrete instance of `C6_publish_order` on the lines `7`, `true`,
`null`. -/
theorem C6_publish_order_witness :
    relayPubs "rtlamr" true ["7", "true", "null"]
      = [debugPub "rtlamr" (Json.num 7), debugPub "rtlamr" (Json.bool true),
         debugPub "rtlamr" Json.null] :=
  C6_publish_order "rtlamr" "7" "true" "null" (Json.num 7) (Json.bool true) Json.null
    (by rfl) (by rfl) (by rfl)

/-- **C4** (counterexample): on an `MQTTException` the emitted log line is
`"MQTT error: {e}"`. It does contain the underlying cause, but neither the
configured broker host nor the topic occurs anywhere in it, so the claim
that the error is logged with host and topic fails. -/
theorem C4_publish_log_counterexample :
    cxSender.publish "rtlamr/debug" "payload" false 0
        (PublishOutcome.mqttError "Connection refused")
      = (false, [⟨LogLevel.error, "MQTT error: Connection refused"⟩])
    ∧ cxSender.host = "mqtt.example.com"
    ∧ containsSeq "mqtt.example.com".data ("MQTT error: Connection refused").data = false
    ∧ containsSeq "rtlamr/debug".data ("MQTT error: Connection refused").data = false :=
  ⟨rfl, rfl, by decide, by decide⟩

/-- **C4** (amended): for every topic, payload, retain/qos flags and every
error raised by the underlying single-shot publish, `MqttSender.publish`
returns `False` instead of propagating, and the log line carries the
underlying cause (though not the host or topic); on success it returns
`True`. -/
theorem C4_publish_amended (sender : MqttSender) (topic payload : String)
    (retain : Bool) (qos : Nat) :
    sender.publish topic payload retain qos PublishOutcome.success
      = (true, [⟨LogLevel.debug, "MQTT published: " ++ topic ++ " -> " ++ payload⟩])
    ∧ (∀ e, sender.publish topic payload retain qos (PublishOutcome.mqttError e)
          = (false, [⟨LogLevel.error, "MQTT error: " ++ e⟩])
        ∧ containsSeq e.data ("MQTT error: " ++ e).data = true)
    ∧ (∀ e, sender.publish topic payload retain qos (PublishOutcome.unknownError e)
          = (false, [⟨LogLevel.error, "Unknown MQTT error: " ++ e⟩])
        ∧ containsSeq e.data ("Unknown MQTT error: " ++ e).data = true) := by
  refine ⟨rfl, ?_, ?_⟩
  · intro e
    refine ⟨rfl, ?_⟩
    have hdata : ("MQTT error: " ++ e).data = "MQTT error: ".data ++ e.data := rfl
    rw [hdata]
    exact containsSeq_append_self e.data "MQTT error: ".data
  · intro e
    refine ⟨rfl, ?_⟩
    have hdata : ("Unknown MQTT error: " ++ e).data = "Unknown MQTT error: ".data ++ e.data := rfl
    rw [hdata]
    exact containsSeq_append_self e.data "Unknown MQTT error: ".data

/-- **C7**: the decoder is launched as `['/usr/bin/rtlamr', '-format=json']`,
then `-msgtype=<value>` exactly when the `msgtype` environment variable is
set, then the whitespace-split `RTLAMR_ARGS`, with the child's stderr merged
into its stdout pipe. -/
theorem C7_rtlamr_command (env : String → Option String) :
    (rtlamrPopen env).args
      = ["/usr/bin/rtlamr", "-format=json"]
        ++ (match env "msgtype" with
            | some v => ["-msgtype=" ++ v]
            | none => [])
        ++ pySplit ((env "RTLAMR_ARGS").getD "")
    ∧ (rtlamrPopen env).stderrToStdout = true
    ∧ (rtlamrPopen env).stdoutPipe = true := by
  refine ⟨?_, rfl, rfl⟩
  cases h : env "msgtype" <;> simp [rtlamrPopen, h]

/-- **C8**: with no path argument and neither default config location
present, `load_config` logs an error and exits with status 1; with a path of
unsupported suffix (neither `.yaml`/`.yml` nor `.json`/`.js`) it logs an
error and exits with status 1; and every exit it performs carries a
non-zero status, distinguishable from the success code 0 of graceful
shutdown. -/
theorem C8_load_config_failures (pathArg : Option String)
    (fileExists : String → Bool) (p : String) :
    ((pathArg = none ∧ ∀ q ∈ configCandidates, fileExists q = false) →
      load_config pathArg fileExists
        = ConfigOutcome.exited 1 "No config file found. Exiting.")
    ∧ ((pyEndsWith p ".yaml" || pyEndsWith p ".yml"
          || pyEndsWith p ".json" || pyEndsWith p ".js") = false →
      load_config (some p) fileExists
        = ConfigOutcome.exited 1 "Unsupported config format")
    ∧ (∀ code log, load_config pathArg fileExists = ConfigOutcome.exited code log →
        code = 1 ∧ code ≠ 0) := by
  refine ⟨?_, ?_, ?_⟩
  · rintro ⟨rfl, hall⟩
    have hfind : configCandidates.find? fileExists = none := by
      rw [List.find?_eq_none]
      intro q hq
      simp [hall q hq]
    simp [load_config, hfind]
  · intro hsuf
    have h1 : pyEndsWith p ".yaml" = false := by
      cases hx : pyEndsWith p ".yaml" <;> simp [hx] at hsuf ⊢
    have h2 : pyEndsWith p ".yml" = false := by
      cases hx : pyEndsWith p ".yml" <;> simp [hx] at hsuf ⊢
    have h3 : pyEndsWith p ".json" = false := by
      cases hx : pyEndsWith p ".json" <;> simp [hx] at hsuf ⊢
    have h4 : pyEndsWith p ".js" = false := by
      cases hx : pyEndsWith p ".js" <;> simp [hx] at hsuf ⊢
    simp [load_config, loadConfigAt, h1, h2, h3, h4]
  · intro code log h
    unfold load_config at h
    rcases pathArg with _ | q
    · rcases hfind : configCandidates.find? fileExists with _ | q
      · rw [hfind] at h
        simp only [ConfigOutcome.exited.injEq] at h
        omega
      · rw [hfind] at h
        have := loadConfigAt_exit q code log h
        omega
    · have := loadConfigAt_exit q code log h
      omega

/-- Concrete instance of `C8_load_config_failures`: no config anywhere, and
a `.conf`-suffixed path, both exit with status 1. -/
theorem C8_load_config_failures_witness :
    load_config none (fun _ => false)
      = ConfigOutcome.exited 1 "No config file found. Exiting."
    ∧ load_config (some "/etc/rtlamr2mqtt.conf") (fun _ => false)
      = ConfigOutcome.exited 1 "Unsupported config format" :=
  ⟨(C8_load_config_failures none (fun _ => false) "x").1
      ⟨rfl, by intro q hq; rfl⟩,
   (C8_load_config_failures (some "/etc/rtlamr2mqtt.conf") (fun _ => false)
      "/etc/rtlamr2mqtt.conf").2.1 (by decide)⟩

/-- **C9** (counterexample): with `SUPERVISOR_TOKEN` set to the empty
string, the variable is set yet `bool(os.getenv(..))` is `False`, so
`listen_mode` constructs no broker client — refuting the claim that a
client is constructed if and only if the variable is set. -/
theorem C9_addon_counterexample :
    (envWith "SUPERVISOR_TOKEN" "" "SUPERVISOR_TOKEN").isSome = true
    ∧ listenModeSender (envWith "SUPERVISOR_TOKEN" "") emptyMqttConf = none := by
  refine ⟨?_, ?_⟩ <;> · simp [envWith, listenModeSender, running_as_addon, pyBoolOfOptStr]

/-- **C9** (amended): a broker client is constructed iff `SUPERVISOR_TOKEN`
is set to a non-empty value at module load; when it is not (unset or
empty), every nonempty reading is still logged but the relay publishes
nothing, the shutdown path's offline publish is skipped, and no publish
attempt is made in the whole process lifetime. -/
theorem C9_addon_gating (env : String → Option String) (conf : MqttConfDict)
    (base_topic : String) (lines : List String) (rtltcp rtlamr : Option PyProc)
    (outcome : PublishOutcome) :
    (listenModeSender env conf).isSome = !((env "SUPERVISOR_TOKEN").getD "").data.isEmpty
    ∧ (running_as_addon env = false →
        relayPubs base_topic false lines = []
        ∧ (∀ line ∈ lines, (pyStrip line).data.isEmpty = false →
            LogLine.mk LogLevel.info (pyStrip line) ∈ relayLogs base_topic false lines)
        ∧ lifetimePubs env conf base_topic lines rtltcp rtlamr outcome = []) := by
  constructor
  · cases h : env "SUPERVISOR_TOKEN" with
    | none => simp [listenModeSender, running_as_addon, pyBoolOfOptStr, h]
    | some s =>
      cases hse : s.data.isEmpty <;>
        simp [listenModeSender, running_as_addon, pyBoolOfOptStr, h, hse]
  · intro haddon
    refine ⟨relayPubs_noSender base_topic lines, relayLogs_mem base_topic false lines, ?_⟩
    have hsender : listenModeSender env conf = none := by
      simp [listenModeSender, haddon]
    unfold lifetimePubs
    rw [hsender]
    simp only [Option.isSome_none]
    rw [relayPubs_noSender base_topic lines]
    unfold shutdownTrace
    simp [stopEvents, List.filterMap_append]
    constructor
    · cases rtltcp with
      | none => simp
      | some pr =>
        cases hpa : pr.alive <;> cases hpc : pr.cooperative <;> simp [hpa, hpc]
    · cases rtlamr with
      | none => simp
      | some pr =>
        cases hpa : pr.alive <;> cases hpc : pr.cooperative <;> simp [hpa, hpc]

/-- Concrete instance of `C9_addon_gating`: with no environment variables
set, the relay on line `7` publishes nothing and the whole lifetime
contains zero publish attempts. -/
theorem C9_addon_gating_witness :
    relayPubs "rtlamr" false ["7"] = []
    ∧ lifetimePubs (fun _ => none) emptyMqttConf "rtlamr" ["7"] none none
        PublishOutcome.success = [] :=
  ⟨((C9_addon_gating (fun _ => none) emptyMqttConf "rtlamr" ["7"] none none
      PublishOutcome.success).2 rfl).1,
   ((C9_addon_gating (fun _ => none) emptyMqttConf "rtlamr" ["7"] none none
      PublishOutcome.success).2 rfl).2.2⟩

/-- **C10**: listen-only mode is entered iff the configured
`general.listen_only` value is truthy or `LISTEN_ONLY`, lower-cased, is
`yes` or `true`; in particular `1` and `on` do not enable it and leave the
program logging that normal mode is unimplemented, while `TRUE` does enable
it. -/
theorem C10_listen_only_dispatch (cfgTruthy : Bool) (env : String → Option String) :
    (mainDispatch cfgTruthy env = MainAction.enterListenMode
      ↔ (cfgTruthy = true
          ∨ pyLower ((env "LISTEN_ONLY").getD "") = "yes"
          ∨ pyLower ((env "LISTEN_ONLY").getD "") = "true"))
    ∧ mainDispatch false (envWith "LISTEN_ONLY" "1") = MainAction.logNormalModeUnimplemented
    ∧ mainDispatch false (envWith "LISTEN_ONLY" "on") = MainAction.logNormalModeUnimplemented
    ∧ mainDispatch false (envWith "LISTEN_ONLY" "TRUE") = MainAction.enterListenMode := by
  refine ⟨?_, by decide, by decide, by decide⟩
  unfold mainDispatch running_in_listen_only_mode listenOnlyEnvFlag
  constructor
  · intro h
    cases hc : cfgTruthy with
    | true => exact Or.inl rfl
    | false =>
      rw [hc] at h
      simp only [Bool.false_or] at h
      by_cases hy : pyLower ((env "LISTEN_ONLY").getD "") = "yes"
      · exact Or.inr (Or.inl hy)
      · by_cases ht : pyLower ((env "LISTEN_ONLY").getD "") = "true"
        · exact Or.inr (Or.inr ht)
        · exfalso
          have hyb : (pyLower ((env "LISTEN_ONLY").getD "") == "yes") = false := by
            simp [hy]
          have htb : (pyLower ((env "LISTEN_ONLY").getD "") == "true") = false := by
            simp [ht]
          rw [hyb, htb] at h
          simp at h
  · rintro (h | h | h)
    · rw [h]
      simp
    · simp [h]
    · simp [h]

end Rtlamr
